import Mathlib

/-!
Verification development for the astviewer repository.

The file embeds, as Lean definitions, the code that the checked claims
depend on:

* the recursive AST-to-display-row projector `add_node` from
  `astviewer.py` (`AstViewer._fill_ast_tree_widget.add_node`),
* the host-shell operations `_update_widgets`, `_load_file`, `open_file`,
  `highlight_node` and the constructor of `AstViewer` from
  `astviewer/main.py`,
* small models of the Python primitives those functions use:
  decimal formatting of integers (`str.format` on int values), `int()`
  conversion, and `str.split`.

Python values that can occur in a parse tree are modelled by `PyVal`;
machine-level details that no claim depends on (the memory address in the
default object repr, escape sequences in string reprs, underscores and
surrounding whitespace accepted by `int()`) are elided and noted at the
definition concerned.
-/

/-- Decimal digit character for a digit value 0..9 (any other input is
mapped to a placeholder that is never produced by the formatter). -/
def digitChar : Nat → Char
  | 0 => '0'
  | 1 => '1'
  | 2 => '2'
  | 3 => '3'
  | 4 => '4'
  | 5 => '5'
  | 6 => '6'
  | 7 => '7'
  | 8 => '8'
  | 9 => '9'
  | _ => '?'

/-- Fuel-driven big-endian decimal digit emitter: produces the decimal
digits of `n` in front of `acc`. The fuel is always at least `n + 1`, which
is enough for every decimal numeral. -/
def natToDecimalCore : Nat → Nat → List Char → List Char
  | 0, _, acc => acc
  | fuel + 1, n, acc =>
      if n < 10 then digitChar n :: acc
      else natToDecimalCore fuel (n / 10) (digitChar (n % 10) :: acc)

/-- Model of Python decimal formatting of a non-negative integer
(`"{}".format(n)`, `"{:d}".format(n)`, `repr(n)` all produce this). -/
def natToDecimal (n : Nat) : String :=
  String.mk (natToDecimalCore (n + 1) n [])

/-- Model of Python decimal formatting of an integer. -/
def intToDecimal (i : Int) : String :=
  if i < 0 then "-" ++ natToDecimal i.natAbs else natToDecimal i.natAbs

/-- Value of a decimal digit character, `none` for any other character. -/
def decDigit (c : Char) : Option Nat :=
  if c = '0' then some 0
  else if c = '1' then some 1
  else if c = '2' then some 2
  else if c = '3' then some 3
  else if c = '4' then some 4
  else if c = '5' then some 5
  else if c = '6' then some 6
  else if c = '7' then some 7
  else if c = '8' then some 8
  else if c = '9' then some 9
  else none

/-- Left-to-right accumulation of decimal digits; `none` as soon as a
non-digit character is met (Python `int()` raises `ValueError` then). -/
def parseDigitsAux : List Char → Nat → Option Nat
  | [], acc => some acc
  | c :: cs, acc =>
      match decDigit c with
      | some d => parseDigitsAux cs (10 * acc + d)
      | none => none

/-- Digit-string value; `none` for the empty string (Python `int("")`
raises `ValueError`). -/
def parseDigits : List Char → Option Nat
  | [] => none
  | c :: cs => parseDigitsAux (c :: cs) 0

/-- Model of Python `int(s)`: an optional leading minus sign followed by at
least one decimal digit; `none` models a raised `ValueError`. (Python also
tolerates surrounding whitespace, a leading plus and digit-group
underscores; those inputs never occur in the strings the viewer stores, and
the model conservatively reports them as failures.) -/
def parsePyInt (s : String) : Option Int :=
  match s.data with
  | [] => none
  | c :: rest =>
      if c = '-' then
        match parseDigits rest with
        | some n => some (-(n : Int))
        | none => none
      else
        match parseDigits (c :: rest) with
        | some n => some ((n : Int))
        | none => none

/-- Character-level worker for `pySplit`: `acc` holds the characters of the
current field in reverse order. -/
def splitCharsAux (sep : Char) : List Char → List Char → List String
  | [], acc => [String.mk acc.reverse]
  | c :: cs, acc =>
      if c = sep then String.mk acc.reverse :: splitCharsAux sep cs []
      else splitCharsAux sep cs (c :: acc)

/-- Model of Python `s.split(sep)` for a one-character separator: fields
between every occurrence of the separator, so the result always has one
more element than the number of separators (`"".split(":") == [""]`). -/
def pySplit (sep : Char) (s : String) : List String :=
  splitCharsAux sep s.data []

/-- The single-quote character used by the Python repr of strings. -/
def singleQuote : String := String.mk [Char.ofNat 39]

/-- A Python value that is neither an AST node nor a list/tuple: the leaf
values that occur in parse-tree fields (identifiers, numbers, booleans,
None). -/
inductive PrimVal where
  | pyNone
  | pyBool (b : Bool)
  | pyInt (i : Int)
  | pyStr (s : String)

/-- Concrete class of a sequence value: built on `list` or on `tuple`.
Which one it is decides the brackets of the inherited default repr. -/
inductive SeqBase where
  | listBase
  | tupleBase

/-- A Python value reachable from a parse tree, as seen by the projector:
an instance of `ast.AST` with its named fields in `ast.iter_fields` order
(the field-declaration order of the node kind), a sequence whose concrete
class name is `cls` (exactly `"list"`/`"tuple"` for the builtins, any other
name for a proper subclass), or a leaf value. -/
inductive PyVal where
  | astNode (cls : String) (fields : List (String × PyVal))
  | seq (base : SeqBase) (cls : String) (elems : List PyVal)
  | prim (p : PrimVal)

/-- Python `__class__.__name__` for the leaf values. -/
def primClassName : PrimVal → String
  | PrimVal.pyNone => "NoneType"
  | PrimVal.pyBool _ => "bool"
  | PrimVal.pyInt _ => "int"
  | PrimVal.pyStr _ => "str"

/-- Python `repr` for the leaf values. String escapes and the choice of
quote character for strings that themselves contain a quote are elided. -/
def primRepr : PrimVal → String
  | PrimVal.pyNone => "None"
  | PrimVal.pyBool true => "True"
  | PrimVal.pyBool false => "False"
  | PrimVal.pyInt i => intToDecimal i
  | PrimVal.pyStr s => singleQuote ++ s ++ singleQuote

/-- Model of `class_name(obj) = obj.__class__.__name__` from
`astviewer.py`. -/
def className : PyVal → String
  | PyVal.astNode cls _ => cls
  | PyVal.seq _ cls _ => cls
  | PyVal.prim p => primClassName p

mutual

/-- Model of Python `repr` on `PyVal`. Sequences use the repr inherited
from `list`/`tuple` (including the trailing comma of one-element tuples);
for AST objects the default object repr is modelled without the memory
address. -/
def pyRepr : PyVal → String
  | PyVal.astNode cls _ => "<_ast." ++ cls ++ " object>"
  | PyVal.seq SeqBase.listBase _ es =>
      "[" ++ String.intercalate ", " (pyReprList es) ++ "]"
  | PyVal.seq SeqBase.tupleBase _ es =>
      match pyReprList es with
      | [single] => "(" ++ single ++ ",)"
      | parts => "(" ++ String.intercalate ", " parts ++ ")"
  | PyVal.prim p => primRepr p

/-- Reprs of the elements of a list of values, in order. -/
def pyReprList : List PyVal → List String
  | [] => []
  | v :: vs => pyRepr v :: pyReprList vs

end

/-- One row of the display tree: the four column texts set by `add_node`
(`Node`, `Field`, `Class`, `Value`) and the child rows in creation
order. -/
inductive Row where
  | mk (nodeText fieldText classText valueText : String) (children : List Row)

/-- Text of the Node column (column 0). -/
def Row.nodeText : Row → String
  | Row.mk t _ _ _ _ => t

/-- Text of the Field column (column 1). -/
def Row.fieldText : Row → String
  | Row.mk _ t _ _ _ => t

/-- Text of the Class column (column 2). -/
def Row.classText : Row → String
  | Row.mk _ _ t _ _ => t

/-- Text of the Value column (column 3). -/
def Row.valueText : Row → String
  | Row.mk _ _ _ t _ => t

/-- Child rows, in the order the recursive calls created them. -/
def Row.children : Row → List Row
  | Row.mk _ _ _ _ cs => cs

mutual

/-- Embedding of `add_node` from `AstViewer._fill_ast_tree_widget`
(`astviewer.py`): `isinstance(ast_node, ast.AST)` is the `astNode`
constructor; `type(ast_node) == types.ListType or type(ast_node) ==
types.TupleType` is the exact-class-name test on a sequence value (the
builtins are the sequences whose concrete class name is `"list"` or
`"tuple"`); everything else is a leaf with `value_str = repr(ast_node)`. -/
def add_node : PyVal → String → Row
  | PyVal.astNode cls fields, lbl =>
      Row.mk (lbl ++ " = " ++ cls) lbl cls "" (add_fields fields)
  | PyVal.seq base cls es, lbl =>
      if cls = "list" ∨ cls = "tuple" then
        Row.mk (lbl ++ " = " ++ cls) lbl cls "" (add_elems es lbl 0)
      else
        Row.mk (lbl ++ " = " ++ pyRepr (PyVal.seq base cls es)) lbl cls
          (pyRepr (PyVal.seq base cls es)) []
  | PyVal.prim p, lbl =>
      Row.mk (lbl ++ " = " ++ primRepr p) lbl (primClassName p) (primRepr p) []

/-- The loop `for key, val in ast.iter_fields(ast_node): add_node(val,
node_item, key)`: one child row per field, in field order. -/
def add_fields : List (String × PyVal) → List Row
  | [] => []
  | (key, val) :: rest => add_node val key :: add_fields rest

/-- The loop `for idx, elem in enumerate(ast_node): add_node(elem,
node_item, "{}[{:d}]".format(field_label, idx))`: one child row per
element, labelled with the running index starting at `i`. -/
def add_elems : List PyVal → String → Nat → List Row
  | [], _, _ => []
  | e :: es, lbl, i =>
      add_node e (lbl ++ "[" ++ natToDecimal i ++ "]") :: add_elems es lbl (i + 1)

end

mutual

/-- All rows of a row tree: the row itself followed by the rows of the
subtrees of its children. -/
def rowsOf : Row → List Row
  | Row.mk a b c v children => Row.mk a b c v children :: rowsOfList children

/-- All rows of a forest, in order. -/
def rowsOfList : List Row → List Row
  | [] => []
  | r :: rs => rowsOf r ++ rowsOfList rs

end

example : natToDecimal 0 = "0" := rfl
example : natToDecimal 123 = "123" := rfl
example : intToDecimal (-45) = "-45" := rfl
example : parsePyInt "-45" = some (-45) := rfl
example : parsePyInt "" = none := rfl
example : pySplit ':' "1:0:2:5" = ["1", "0", "2", "5"] := rfl
example : pySplit ':' "" = [""] := rfl

/-- The program name (`PROGRAM_NAME` constant). -/
def PROGRAM_NAME : String := "astviewer"

/-- Contents of the syntax-tree widget: cleared, or populated by one call
`self.ast_tree.populate(syntax_tree, root_label=self._file_name)`. The
widget internals (`astviewer/tree.py`) are outside the embedded sources, so
a populate call is recorded abstractly as the pair of its arguments. -/
inductive TreeContent where
  | empty
  | populated (tree : PyVal) (rootLabel : String)

/-- Outcome of the external parser collaborator
`ast.parse(source, filename, mode)`: a parse tree, or a raised exception
whose message is `exMsg`; `stackTrace` is the text that
`traceback.format_exc()` yields for that exception in the handler. -/
inductive ParseOutcome where
  | ok (tree : PyVal)
  | failed (exMsg : String) (stackTrace : String)

/-- Outcome of opening and reading a file in `_load_file`: the decoded
text; an open failure (`QFile.open` returns false); or a decode failure
(`str(text, encoding='utf-8')` raises `UnicodeDecodeError` with message
`exMsg` — only `TypeError` is caught by the code). -/
inductive FileReadOutcome where
  | ok (text : String)
  | openFail
  | decodeFail (exMsg : String)

/-- State of an `AstViewer` window (`astviewer/main.py`), together with
instrumentation logs that record the observable calls the claims speak
about: `warnings` the `QMessageBox.warning` texts, `log` the
`logger.warning` texts, `parseLog` the sources passed to `ast.parse`, and
`populateLog` the arguments of every `ast_tree.populate` call. -/
structure AstViewerState where
  file_name : String
  source_code : String
  mode : String
  windowTitle : String
  editorText : String
  tree : TreeContent
  warnings : List String
  log : List String
  parseLog : List String
  populateLog : List (PyVal × String)

/-- Embedding of `AstViewer._update_widgets`. The window title and the
editor text are set first; an empty source clears the tree and returns; a
parse failure shows a warning built from the file name, the exception
message and the stack trace, leaving the tree untouched; a successful parse
populates the tree. The `DEBUGGING` re-raise branch (from
`astviewer/misc.py`, not among the embedded sources; the spec describes the
error as surfaced to the user, i.e. non-debug operation) is not
modelled. -/
def update_widgets (parser : String → String → String → ParseOutcome)
    (st : AstViewerState) : AstViewerState :=
  if st.source_code = "" then
    { st with
      windowTitle := PROGRAM_NAME ++ " - " ++ st.file_name,
      editorText := st.source_code,
      tree := TreeContent.empty }
  else
    match parser st.source_code st.file_name st.mode with
    | ParseOutcome.failed exMsg stackTrace =>
        { st with
          windowTitle := PROGRAM_NAME ++ " - " ++ st.file_name,
          editorText := st.source_code,
          parseLog := st.parseLog ++ [st.source_code],
          warnings := st.warnings ++
            ["Unable to parse file: " ++ st.file_name ++ "\n\n" ++ exMsg
              ++ "\n\n" ++ stackTrace] }
    | ParseOutcome.ok t =>
        { st with
          windowTitle := PROGRAM_NAME ++ " - " ++ st.file_name,
          editorText := st.source_code,
          parseLog := st.parseLog ++ [st.source_code],
          tree := TreeContent.populated t st.file_name,
          populateLog := st.populateLog ++ [(t, st.file_name)] }

/-- Embedding of `AstViewer._load_file`: on success the stored file name
and source code are replaced; an open failure is reported by a logger
warning and a message box and changes nothing else; a decode failure is an
uncaught exception (`Except.error`), because the handler catches only
`TypeError`. -/
def load_file (fs : String → FileReadOutcome) (st : AstViewerState)
    (file_name : String) : Except String AstViewerState :=
  match fs file_name with
  | FileReadOutcome.ok text =>
      Except.ok { st with file_name := file_name, source_code := text }
  | FileReadOutcome.decodeFail exMsg => Except.error exMsg
  | FileReadOutcome.openFail =>
      Except.ok { st with
        warnings := st.warnings ++ ["Unable to open file: " ++ file_name],
        log := st.log ++ ["Unable to open file: " ++ file_name] }

/-- Embedding of `AstViewer.open_file`: a falsy (empty) `file_name` is
replaced by the file dialog result; a truthy name is loaded; the widgets
are then updated unconditionally. -/
def open_file (fs : String → FileReadOutcome)
    (parser : String → String → String → ParseOutcome)
    (dialogResult : String) (st : AstViewerState) (file_name : String) :
    Except String AstViewerState :=
  let fn := if file_name = "" then dialogResult else file_name
  match (if fn = "" then Except.ok st else load_file fs st fn) with
  | Except.error e => Except.error e
  | Except.ok st1 => Except.ok (update_widgets parser st1)

/-- The three modes accepted by the `AstViewer` constructor. -/
def validModes : List String := ["exec", "eval", "single"]

/-- The `ValueError` message raised for an invalid mode:
`"Mode must be one of: {}".format(valid_modes)`. -/
def modeErrorMessage : String :=
  "Mode must be one of: [" ++ singleQuote ++ "exec" ++ singleQuote ++ ", "
    ++ singleQuote ++ "eval" ++ singleQuote ++ ", " ++ singleQuote
    ++ "single" ++ singleQuote ++ "]"

/-- The logger warning emitted when both constructor arguments are given. -/
def bothDefinedWarning : String :=
  "Both the file_name and source_code are defined: source_code ignored."

/-- The model state right after the constructor stores its models
(`self._file_name = '<source>'`, `self._source_code = source_code`,
`self._mode = mode`) and sets up the views. -/
def initialState (source_code mode : String) : AstViewerState :=
  { file_name := "<source>", source_code := source_code, mode := mode,
    windowTitle := PROGRAM_NAME, editorText := "", tree := TreeContent.empty,
    warnings := [], log := [], parseLog := [], populateLog := [] }

/-- The state after the constructor has stored its models and run the
`if file_name and source_code:` warning: the conflict between the two
arguments is recorded in the logger log. -/
def initWarnState (file_name source_code mode : String) : AstViewerState :=
  if file_name ≠ "" ∧ source_code ≠ "" then
    { initialState source_code mode with
      log := (initialState source_code mode).log ++ [bothDefinedWarning] }
  else initialState source_code mode

/-- Embedding of `AstViewer.__init__`: an invalid mode raises `ValueError`
before any state is set up; otherwise the state is initialised, a warning
is logged when both `file_name` and `source_code` are given, the file is
loaded when `file_name` is given, and the widgets are updated. -/
def astViewerInit (fs : String → FileReadOutcome)
    (parser : String → String → String → ParseOutcome)
    (file_name source_code mode : String) : Except String AstViewerState :=
  if mode ∈ validModes then
    match (if file_name ≠ "" then
            load_file fs (initWarnState file_name source_code mode) file_name
           else Except.ok (initWarnState file_name source_code mode)) with
    | Except.error e => Except.error e
    | Except.ok st2 => Except.ok (update_widgets parser st2)
  else
    Except.error modeErrorMessage

/-- The pair `(int(line_str), int(col_str))` built inside a
`try/except ValueError` in `highlight_node`: `none` when either conversion
raises, modelling the assignment of `None` to that endpoint. -/
def parsePair (a b : String) : Option (Int × Int) :=
  match parsePyInt a, parsePyInt b with
  | some x, some y => some (x, y)
  | _, _ => none

/-- Embedding of `AstViewer.highlight_node`: the input is the text of the
current item in the highlight column (`none` when there is no current
item). The four-name unpacking of `highlight_str.split(":")` raises an
uncaught `ValueError` unless the split has exactly four fields
(`Except.error`); each endpoint pair is parsed under its own
`except ValueError` handler; the result is the argument pair passed to
`editor.select_text`. -/
def highlight_node (currentItemText : Option String) :
    Except String (Option (Int × Int) × Option (Int × Int)) :=
  match currentItemText with
  | none => Except.ok (some (0, 0), some (0, 0))
  | some s =>
      match pySplit ':' s with
      | [a, b, c, d] => Except.ok (parsePair a b, parsePair c d)
      | _ => Except.error "ValueError: unpacking highlight string"

/-- Modelled from the spec: the raw highlight string stored by the tree
widget in the highlight column. The widget code (`astviewer/tree.py`) is
not among the embedded sources; section 6 of the spec gives the format
`"{sl}:{sc}:{el}:{ec}"` used for round-trip parsing by the highlighter. -/
def highlightString (sl sc el ec : Int) : String :=
  intToDecimal sl ++ ":" ++ intToDecimal sc ++ ":" ++ intToDecimal el
    ++ ":" ++ intToDecimal ec

example : highlight_node (some "1:0:2:5")
    = Except.ok (some (1, 0), some (2, 5)) := rfl
example : highlight_node (some "x:0:2:5") = Except.ok (none, some (2, 5)) := rfl
example : highlight_node (some "1:2") = Except.error "ValueError: unpacking highlight string" := rfl

theorem decDigit_digitChar : ∀ d < 10, decDigit (digitChar d) = some d := by
  decide

theorem digitChar_ne_colon : ∀ d < 10, digitChar d ≠ ':' := by decide

theorem digitChar_ne_dash : ∀ d < 10, digitChar d ≠ '-' := by decide

theorem strMk_data (s : String) : String.mk s.data = s := rfl

theorem ne_empty_of_data_ne_nil {s : String} (h : s.data ≠ []) : s ≠ "" :=
  fun he => h (by subst he; rfl)

theorem natToDecimalCore_ne_nil_of_acc :
    ∀ fuel n acc, acc ≠ ([] : List Char) → natToDecimalCore fuel n acc ≠ [] := by
  intro fuel
  induction fuel with
  | zero => intro n acc h; simpa [natToDecimalCore] using h
  | succ f ih =>
      intro n acc h
      by_cases h10 : n < 10
      · simp [natToDecimalCore, if_pos h10]
      · simp only [natToDecimalCore, if_neg h10]
        exact ih (n / 10) (digitChar (n % 10) :: acc) (by simp)

theorem natToDecimalCore_ne_nil (fuel n : Nat) (acc : List Char) :
    natToDecimalCore (fuel + 1) n acc ≠ [] := by
  by_cases h10 : n < 10
  · simp [natToDecimalCore, if_pos h10]
  · simp only [natToDecimalCore, if_neg h10]
    exact natToDecimalCore_ne_nil_of_acc fuel (n / 10)
      (digitChar (n % 10) :: acc) (by simp)

theorem natToDecimalCore_chars :
    ∀ fuel n acc c, c ∈ natToDecimalCore fuel n acc →
      (∃ d, d < 10 ∧ c = digitChar d) ∨ c ∈ acc := by
  intro fuel
  induction fuel with
  | zero => intro n acc c h; right; simpa [natToDecimalCore] using h
  | succ f ih =>
      intro n acc c h
      by_cases h10 : n < 10
      · simp only [natToDecimalCore, if_pos h10, List.mem_cons] at h
        rcases h with h | h
        · exact Or.inl ⟨n, h10, h⟩
        · exact Or.inr h
      · simp only [natToDecimalCore, if_neg h10] at h
        rcases ih (n / 10) (digitChar (n % 10) :: acc) c h with h1 | h1
        · exact Or.inl h1
        · rcases List.mem_cons.mp h1 with h2 | h2
          · exact Or.inl ⟨n % 10, Nat.mod_lt _ (by norm_num), h2⟩
          · exact Or.inr h2

theorem parseDigitsAux_digit (d : Nat) (hd : d < 10) (cs : List Char) (acc : Nat) :
    parseDigitsAux (digitChar d :: cs) acc = parseDigitsAux cs (10 * acc + d) := by
  simp [parseDigitsAux, decDigit_digitChar d hd]

theorem natToDecimalCore_parse :
    ∀ fuel n acc a0, n < 10 ^ (fuel + 1) →
      ∃ k, 0 < k ∧ n < 10 ^ k ∧
        parseDigitsAux (natToDecimalCore (fuel + 1) n acc) a0 =
          parseDigitsAux acc (a0 * 10 ^ k + n) := by
  intro fuel
  induction fuel with
  | zero =>
      intro n acc a0 hn
      have h10 : n < 10 := by simpa using hn
      refine ⟨1, by norm_num, by simpa using h10, ?_⟩
      have hstep : natToDecimalCore 1 n acc = digitChar n :: acc := by
        simp [natToDecimalCore, if_pos h10]
      rw [hstep, parseDigitsAux_digit n h10]
      have h1 : a0 * 10 ^ 1 + n = 10 * a0 + n := by ring
      rw [h1]
  | succ f ih =>
      intro n acc a0 hn
      by_cases h10 : n < 10
      · refine ⟨1, by norm_num, by simpa using h10, ?_⟩
        have hstep : natToDecimalCore (f + 1 + 1) n acc = digitChar n :: acc := by
          simp [natToDecimalCore, if_pos h10]
        rw [hstep, parseDigitsAux_digit n h10]
        have h1 : a0 * 10 ^ 1 + n = 10 * a0 + n := by ring
        rw [h1]
      · have hdiv : n / 10 < 10 ^ (f + 1) := by
          rw [Nat.div_lt_iff_lt_mul (by norm_num)]
          calc n < 10 ^ (f + 1 + 1) := hn
            _ = 10 ^ (f + 1) * 10 := by ring
        obtain ⟨k, hk0, hklt, heq⟩ := ih (n / 10) (digitChar (n % 10) :: acc) a0 hdiv
        have hmod : n % 10 < 10 := Nat.mod_lt _ (by norm_num)
        have hdm : 10 * (n / 10) + n % 10 = n := Nat.div_add_mod n 10
        refine ⟨k + 1, by omega, ?_, ?_⟩
        · rw [pow_succ]
          omega
        · have hstep : natToDecimalCore (f + 1 + 1) n acc
              = natToDecimalCore (f + 1) (n / 10) (digitChar (n % 10) :: acc) := by
            simp [natToDecimalCore, if_neg h10]
          rw [hstep, heq, parseDigitsAux_digit (n % 10) hmod]
          congr 1
          rw [pow_succ]
          conv_rhs => rw [← hdm]
          ring

theorem parseDigits_natToDecimal (n : Nat) :
    parseDigits (natToDecimal n).data = some n := by
  have hne : natToDecimalCore (n + 1) n [] ≠ [] := natToDecimalCore_ne_nil n n []
  have hlt : n < 10 ^ (n + 1) := by
    calc n < 10 ^ n := Nat.lt_pow_self (by norm_num) n
      _ ≤ 10 ^ (n + 1) := Nat.pow_le_pow_right (by norm_num) (Nat.le_succ n)
  obtain ⟨k, _, _, heq⟩ := natToDecimalCore_parse n n [] 0 hlt
  have hdata : (natToDecimal n).data = natToDecimalCore (n + 1) n [] := rfl
  rw [hdata]
  have hred : parseDigits (natToDecimalCore (n + 1) n [])
      = parseDigitsAux (natToDecimalCore (n + 1) n []) 0 := by
    cases hcore : natToDecimalCore (n + 1) n [] with
    | nil => exact absurd hcore hne
    | cons c cs => rfl
  rw [hred, heq]
  simp [parseDigitsAux]

theorem natToDecimal_chars (n : Nat) :
    ∀ c ∈ (natToDecimal n).data, ∃ d, d < 10 ∧ c = digitChar d := by
  intro c hc
  have hdata : (natToDecimal n).data = natToDecimalCore (n + 1) n [] := rfl
  rw [hdata] at hc
  rcases natToDecimalCore_chars (n + 1) n [] c hc with h | h
  · exact h
  · simp at h

theorem natToDecimal_ne_empty (n : Nat) : natToDecimal n ≠ "" :=
  ne_empty_of_data_ne_nil (natToDecimalCore_ne_nil n n [])

theorem dash_append_data (s : String) : ("-" ++ s).data = '-' :: s.data := by
  rw [String.data_append]
  rfl

theorem intToDecimal_ne_empty (i : Int) : intToDecimal i ≠ "" := by
  unfold intToDecimal
  split
  · exact ne_empty_of_data_ne_nil (by rw [dash_append_data]; simp)
  · exact natToDecimal_ne_empty i.natAbs

theorem intToDecimal_chars (i : Int) :
    ∀ c ∈ (intToDecimal i).data, c ≠ ':' := by
  intro c hc
  unfold intToDecimal at hc
  split at hc
  · rw [dash_append_data] at hc
    rcases List.mem_cons.mp hc with h | h
    · subst h; decide
    · obtain ⟨d, hd, rfl⟩ := natToDecimal_chars i.natAbs c h
      exact digitChar_ne_colon d hd
  · obtain ⟨d, hd, rfl⟩ := natToDecimal_chars i.natAbs c hc
    exact digitChar_ne_colon d hd

theorem parsePyInt_intToDecimal (i : Int) : parsePyInt (intToDecimal i) = some i := by
  by_cases hneg : i < 0
  · have h1 : (intToDecimal i).data = '-' :: (natToDecimal i.natAbs).data := by
      unfold intToDecimal
      rw [if_pos hneg, dash_append_data]
    have habs : -((i.natAbs : Nat) : Int) = i := by omega
    unfold parsePyInt
    rw [h1]
    show (match parseDigits (natToDecimal i.natAbs).data with
          | some n => some (-(n : Int))
          | none => none) = some i
    rw [parseDigits_natToDecimal]
    exact congrArg some habs
  · have h0 : (intToDecimal i).data = (natToDecimal i.natAbs).data := by
      unfold intToDecimal
      rw [if_neg hneg]
    cases hdata : (natToDecimal i.natAbs).data with
    | nil => exact absurd hdata (by
        simpa using natToDecimalCore_ne_nil i.natAbs i.natAbs [])
    | cons c cs =>
        obtain ⟨d, hd, rfl⟩ := natToDecimal_chars i.natAbs c
          (by rw [hdata]; exact List.mem_cons_self c cs)
        have habs : ((i.natAbs : Nat) : Int) = i := by omega
        unfold parsePyInt
        rw [h0, hdata]
        simp only [if_neg (digitChar_ne_dash d hd)]
        rw [← hdata, parseDigits_natToDecimal]
        exact congrArg some habs

theorem splitCharsAux_no_sep (sep : Char) :
    ∀ l acc, (∀ c ∈ l, c ≠ sep) →
      splitCharsAux sep l acc = [String.mk (acc.reverse ++ l)] := by
  intro l
  induction l with
  | nil => intro acc _; simp [splitCharsAux]
  | cons c cs ih =>
      intro acc h
      have hc : c ≠ sep := h c (List.mem_cons_self c cs)
      simp only [splitCharsAux, if_neg hc]
      rw [ih (c :: acc) (fun x hx => h x (List.mem_cons_of_mem c hx))]
      simp

theorem splitCharsAux_append_sep (sep : Char) :
    ∀ l rest acc, (∀ c ∈ l, c ≠ sep) →
      splitCharsAux sep (l ++ sep :: rest) acc =
        String.mk (acc.reverse ++ l) :: splitCharsAux sep rest [] := by
  intro l
  induction l with
  | nil =>
      intro rest acc _
      simp [splitCharsAux]
  | cons c cs ih =>
      intro rest acc h
      have hc : c ≠ sep := h c (List.mem_cons_self c cs)
      have hstep : splitCharsAux sep ((c :: cs) ++ sep :: rest) acc
          = splitCharsAux sep (cs ++ sep :: rest) (c :: acc) := by
        simp [splitCharsAux, if_neg hc]
      rw [hstep, ih rest (c :: acc) (fun x hx => h x (List.mem_cons_of_mem c hx))]
      simp

theorem colon_append_data (s t : String) :
    (s ++ ":" ++ t).data = s.data ++ ':' :: t.data := by
  rw [String.data_append, String.data_append]
  simp

theorem pySplit_colon_four (a b c d : String)
    (ha : ∀ ch ∈ a.data, ch ≠ ':') (hb : ∀ ch ∈ b.data, ch ≠ ':')
    (hc : ∀ ch ∈ c.data, ch ≠ ':') (hd : ∀ ch ∈ d.data, ch ≠ ':') :
    pySplit ':' (a ++ ":" ++ b ++ ":" ++ c ++ ":" ++ d) = [a, b, c, d] := by
  have hdata : (a ++ ":" ++ b ++ ":" ++ c ++ ":" ++ d).data
      = a.data ++ ':' :: (b.data ++ ':' :: (c.data ++ ':' :: d.data)) := by
    rw [colon_append_data (a ++ ":" ++ b ++ ":" ++ c) d,
      colon_append_data (a ++ ":" ++ b) c, colon_append_data a b]
    simp
  unfold pySplit
  rw [hdata]
  rw [splitCharsAux_append_sep ':' a.data _ [] ha]
  rw [splitCharsAux_append_sep ':' b.data _ [] hb]
  rw [splitCharsAux_append_sep ':' c.data _ [] hc]
  rw [splitCharsAux_no_sep ':' d.data [] hd]
  simp [strMk_data]

theorem pySplit_highlightString (sl sc el ec : Int) :
    pySplit ':' (highlightString sl sc el ec)
      = [intToDecimal sl, intToDecimal sc, intToDecimal el, intToDecimal ec] := by
  unfold highlightString
  exact pySplit_colon_four _ _ _ _ (intToDecimal_chars sl) (intToDecimal_chars sc)
    (intToDecimal_chars el) (intToDecimal_chars ec)

theorem parsePair_intToDecimal (x y : Int) :
    parsePair (intToDecimal x) (intToDecimal y) = some (x, y) := by
  unfold parsePair
  rw [parsePyInt_intToDecimal x, parsePyInt_intToDecimal y]

theorem parsePair_none_left {a b : String} (h : parsePyInt a = none) :
    parsePair a b = none := by
  unfold parsePair
  rw [h]

theorem parsePair_none_right {a b : String} (h : parsePyInt b = none) :
    parsePair a b = none := by
  unfold parsePair
  rw [h]
  cases parsePyInt a <;> rfl

theorem primRepr_ne_empty (p : PrimVal) : primRepr p ≠ "" := by
  cases p with
  | pyNone => decide
  | pyBool b => cases b <;> decide
  | pyInt i => exact intToDecimal_ne_empty i
  | pyStr s =>
      apply ne_empty_of_data_ne_nil
      show (singleQuote ++ s ++ singleQuote).data ≠ []
      rw [String.data_append, String.data_append]
      simp [singleQuote]

theorem pyRepr_seq_ne_empty (base : SeqBase) (cls : String) (es : List PyVal) :
    pyRepr (PyVal.seq base cls es) ≠ "" := by
  cases base with
  | listBase =>
      apply ne_empty_of_data_ne_nil
      show ("[" ++ String.intercalate ", " (pyReprList es) ++ "]").data ≠ []
      rw [String.data_append, String.data_append]
      simp
  | tupleBase =>
      show (match pyReprList es with
            | [single] => "(" ++ single ++ ",)"
            | parts => "(" ++ String.intercalate ", " parts ++ ")") ≠ ""
      cases hp : pyReprList es with
      | nil =>
          apply ne_empty_of_data_ne_nil
          rw [String.data_append, String.data_append]
          simp
      | cons x xs =>
          cases xs with
          | nil =>
              apply ne_empty_of_data_ne_nil
              rw [String.data_append, String.data_append]
              simp
          | cons y ys =>
              apply ne_empty_of_data_ne_nil
              rw [String.data_append, String.data_append]
              simp

theorem add_node_fieldText (v : PyVal) (lbl : String) :
    (add_node v lbl).fieldText = lbl := by
  cases v with
  | astNode cls fields => simp [add_node, Row.fieldText]
  | seq base cls es =>
      by_cases h : cls = "list" ∨ cls = "tuple" <;>
        simp [add_node, h, Row.fieldText]
  | prim p => simp [add_node, Row.fieldText]

theorem add_fields_eq_map (fs : List (String × PyVal)) :
    add_fields fs = fs.map (fun kv => add_node kv.2 kv.1) := by
  induction fs with
  | nil => simp [add_fields]
  | cons kv rest ih => cases kv; simp [add_fields, ih]

theorem add_fields_labels (fs : List (String × PyVal)) :
    (add_fields fs).map Row.fieldText = fs.map Prod.fst := by
  rw [add_fields_eq_map, List.map_map]
  apply List.map_congr_left
  intro kv _
  exact add_node_fieldText kv.2 kv.1

theorem add_elems_length (es : List PyVal) (lbl : String) :
    ∀ i, (add_elems es lbl i).length = es.length := by
  induction es with
  | nil => intro i; simp [add_elems]
  | cons e rest ih => intro i; simp [add_elems, ih]

theorem add_elems_getElem (es : List PyVal) (lbl : String) :
    ∀ i j, (add_elems es lbl i)[j]? =
      (es[j]?).map (fun e => add_node e (lbl ++ "[" ++ natToDecimal (i + j) ++ "]")) := by
  induction es with
  | nil => intro i j; simp [add_elems]
  | cons e rest ih =>
      intro i j
      cases j with
      | zero => simp [add_elems]
      | succ j =>
          simp only [add_elems, List.getElem?_cons_succ]
          rw [ih (i + 1) j]
          have harith : i + 1 + j = i + (j + 1) := by omega
          rw [harith]

theorem self_mem_rowsOf (r : Row) : r ∈ rowsOf r := by
  cases r with
  | mk a b c v children => simp [rowsOf]

mutual

theorem add_node_rows_dichotomy :
    ∀ (v : PyVal) (lbl : String), ∀ r ∈ rowsOf (add_node v lbl),
      r.valueText = "" ∨ r.children = []
  | PyVal.astNode cls fields, lbl, r, hr => by
      simp only [add_node, rowsOf, List.mem_cons] at hr
      rcases hr with hr | hr
      · subst hr; left; rfl
      · exact add_fields_rows_dichotomy fields r hr
  | PyVal.seq base cls es, lbl, r, hr => by
      by_cases hcls : cls = "list" ∨ cls = "tuple"
      · rw [show add_node (PyVal.seq base cls es) lbl
            = Row.mk (lbl ++ " = " ++ cls) lbl cls "" (add_elems es lbl 0) by
              simp [add_node, hcls]] at hr
        simp only [rowsOf, List.mem_cons] at hr
        rcases hr with hr | hr
        · subst hr; left; rfl
        · exact add_elems_rows_dichotomy es lbl 0 r hr
      · rw [show add_node (PyVal.seq base cls es) lbl
            = Row.mk (lbl ++ " = " ++ pyRepr (PyVal.seq base cls es)) lbl cls
                (pyRepr (PyVal.seq base cls es)) [] by
              simp [add_node, hcls]] at hr
        simp only [rowsOf, rowsOfList, List.mem_cons] at hr
        rcases hr with hr | hr
        · subst hr; right; rfl
        · simp at hr
  | PyVal.prim p, lbl, r, hr => by
      simp only [add_node, rowsOf, rowsOfList, List.mem_cons] at hr
      rcases hr with hr | hr
      · subst hr; right; rfl
      · simp at hr

theorem add_fields_rows_dichotomy :
    ∀ (fs : List (String × PyVal)), ∀ r ∈ rowsOfList (add_fields fs),
      r.valueText = "" ∨ r.children = []
  | [], r, hr => by simp [add_fields, rowsOfList] at hr
  | (key, val) :: rest, r, hr => by
      simp only [add_fields, rowsOfList, List.mem_append] at hr
      rcases hr with hr | hr
      · exact add_node_rows_dichotomy val key r hr
      · exact add_fields_rows_dichotomy rest r hr

theorem add_elems_rows_dichotomy :
    ∀ (es : List PyVal) (lbl : String) (i : Nat), ∀ r ∈ rowsOfList (add_elems es lbl i),
      r.valueText = "" ∨ r.children = []
  | [], lbl, i, r, hr => by simp [add_elems, rowsOfList] at hr
  | e :: rest, lbl, i, r, hr => by
      simp only [add_elems, rowsOfList, List.mem_append] at hr
      rcases hr with hr | hr
      · exact add_node_rows_dichotomy e (lbl ++ "[" ++ natToDecimal i ++ "]") r hr
      · exact add_elems_rows_dichotomy rest lbl (i + 1) r hr

end

theorem update_widgets_file_name (parser : String → String → String → ParseOutcome)
    (st : AstViewerState) : (update_widgets parser st).file_name = st.file_name := by
  unfold update_widgets
  split
  · rfl
  · split <;> rfl

theorem update_widgets_source_code (parser : String → String → String → ParseOutcome)
    (st : AstViewerState) : (update_widgets parser st).source_code = st.source_code := by
  unfold update_widgets
  split
  · rfl
  · split <;> rfl

theorem update_widgets_log (parser : String → String → String → ParseOutcome)
    (st : AstViewerState) : (update_widgets parser st).log = st.log := by
  unfold update_widgets
  split
  · rfl
  · split <;> rfl

theorem update_widgets_editorText (parser : String → String → String → ParseOutcome)
    (st : AstViewerState) : (update_widgets parser st).editorText = st.source_code := by
  unfold update_widgets
  split
  · rfl
  · split <;> rfl

theorem update_widgets_warnings_mono (parser : String → String → String → ParseOutcome)
    (st : AstViewerState) :
    ∃ tail, (update_widgets parser st).warnings = st.warnings ++ tail := by
  unfold update_widgets
  split
  · exact ⟨[], by simp⟩
  · split
    · exact ⟨_, rfl⟩
    · exact ⟨[], by simp⟩

theorem update_widgets_parseLog (parser : String → String → String → ParseOutcome)
    (st : AstViewerState) (hsrc : st.source_code ≠ "") :
    (update_widgets parser st).parseLog = st.parseLog ++ [st.source_code] := by
  unfold update_widgets
  rw [if_neg hsrc]
  split <;> rfl

/-- C1: every row produced by the projector `add_node` is either a
composite row or a leaf row, never both. A structured AST node, and an
exact list/tuple, yield a row whose value column is the empty string and
whose children are the recursively produced rows; any other value yields a
leaf row with non-empty value repr (the repr of the value) and zero
children; and every row anywhere in a produced tree has an empty value
column or no children. -/
theorem add_node_composite_or_leaf :
    (∀ (cls : String) (fields : List (String × PyVal)) (lbl : String),
      (add_node (PyVal.astNode cls fields) lbl).valueText = "" ∧
      (add_node (PyVal.astNode cls fields) lbl).children = add_fields fields) ∧
    (∀ (base : SeqBase) (cls : String) (es : List PyVal) (lbl : String),
      cls = "list" ∨ cls = "tuple" →
      (add_node (PyVal.seq base cls es) lbl).valueText = "" ∧
      (add_node (PyVal.seq base cls es) lbl).children = add_elems es lbl 0) ∧
    (∀ (p : PrimVal) (lbl : String),
      (add_node (PyVal.prim p) lbl).valueText = primRepr p ∧
      primRepr p ≠ "" ∧
      (add_node (PyVal.prim p) lbl).children = []) ∧
    (∀ (base : SeqBase) (cls : String) (es : List PyVal) (lbl : String),
      ¬(cls = "list" ∨ cls = "tuple") →
      (add_node (PyVal.seq base cls es) lbl).valueText
        = pyRepr (PyVal.seq base cls es) ∧
      pyRepr (PyVal.seq base cls es) ≠ "" ∧
      (add_node (PyVal.seq base cls es) lbl).children = []) ∧
    (∀ (v : PyVal) (lbl : String), ∀ r ∈ rowsOf (add_node v lbl),
      r.valueText = "" ∨ r.children = []) := by
  refine ⟨?_, ?_, ?_, ?_, add_node_rows_dichotomy⟩
  · intro cls fields lbl
    exact ⟨rfl, rfl⟩
  · intro base cls es lbl h
    constructor <;> simp [add_node, h, Row.valueText, Row.children]
  · intro p lbl
    exact ⟨rfl, primRepr_ne_empty p, rfl⟩
  · intro base cls es lbl h
    refine ⟨by simp [add_node, h, Row.valueText], pyRepr_seq_ne_empty base cls es,
      by simp [add_node, h, Row.children]⟩

theorem add_node_composite_or_leaf_witness :
    ((add_node (PyVal.seq SeqBase.listBase "list" [PyVal.prim PrimVal.pyNone])
        "body").valueText = "" ∧
     (add_node (PyVal.seq SeqBase.listBase "list" [PyVal.prim PrimVal.pyNone])
        "body").children = add_elems [PyVal.prim PrimVal.pyNone] "body" 0) ∧
    ((add_node (PyVal.seq SeqBase.listBase "MyList" []) "x").valueText
        = pyRepr (PyVal.seq SeqBase.listBase "MyList" []) ∧
     pyRepr (PyVal.seq SeqBase.listBase "MyList" []) ≠ "" ∧
     (add_node (PyVal.seq SeqBase.listBase "MyList" []) "x").children = []) ∧
    ((add_node (PyVal.prim (PrimVal.pyInt 7)) "n").valueText = "" ∨
     (add_node (PyVal.prim (PrimVal.pyInt 7)) "n").children = []) :=
  ⟨add_node_composite_or_leaf.2.1 SeqBase.listBase "list"
      [PyVal.prim PrimVal.pyNone] "body" (Or.inl rfl),
   add_node_composite_or_leaf.2.2.2.1 SeqBase.listBase "MyList" [] "x" (by decide),
   add_node_composite_or_leaf.2.2.2.2 (PyVal.prim (PrimVal.pyInt 7)) "n" _
      (self_mem_rowsOf _)⟩

/-- C2: the children of a composite row follow the field order yielded by
`ast.iter_fields` for structured nodes (the field-declaration order of the
node kind) and element order for sequences, whose child at index `i` is
labelled with index `i`; and projecting the same tree twice yields
identical row labels in identical order (the projector is a pure
function). -/
theorem add_node_child_order :
    (∀ (cls : String) (fields : List (String × PyVal)) (lbl : String),
      ((add_node (PyVal.astNode cls fields) lbl).children).map Row.fieldText
        = fields.map Prod.fst) ∧
    (∀ (base : SeqBase) (cls : String) (es : List PyVal) (lbl : String),
      cls = "list" ∨ cls = "tuple" → ∀ i, i < es.length →
      (((add_node (PyVal.seq base cls es) lbl).children)[i]?).map Row.fieldText
        = some (lbl ++ "[" ++ natToDecimal i ++ "]")) ∧
    (∀ (v : PyVal) (lbl : String),
      (rowsOf (add_node v lbl)).map Row.nodeText
        = (rowsOf (add_node v lbl)).map Row.nodeText) := by
  refine ⟨?_, ?_, fun v lbl => rfl⟩
  · intro cls fields lbl
    exact add_fields_labels fields
  · intro base cls es lbl h i hi
    have hch : (add_node (PyVal.seq base cls es) lbl).children
        = add_elems es lbl 0 := by
      simp [add_node, h, Row.children]
    rw [hch, add_elems_getElem es lbl 0 i, List.getElem?_eq_getElem hi]
    simp [add_node_fieldText]

theorem add_node_child_order_witness :
    (((add_node (PyVal.astNode "Assign"
        [("targets", PyVal.prim PrimVal.pyNone),
         ("value", PyVal.prim (PrimVal.pyInt 1))]) "root").children).map
        Row.fieldText = ["targets", "value"]) ∧
    ((((add_node (PyVal.seq SeqBase.listBase "list"
        [PyVal.prim PrimVal.pyNone, PyVal.prim (PrimVal.pyInt 2)])
        "body").children)[1]?).map Row.fieldText = some "body[1]") :=
  ⟨add_node_child_order.1 "Assign"
      [("targets", PyVal.prim PrimVal.pyNone),
       ("value", PyVal.prim (PrimVal.pyInt 1))] "root",
   add_node_child_order.2.1 SeqBase.listBase "list"
      [PyVal.prim PrimVal.pyNone, PyVal.prim (PrimVal.pyInt 2)] "body"
      (Or.inl rfl) 1 (by decide)⟩

/-- C6: a field value that is an exact list or tuple of `n` elements yields
a composite row labelled with the container class name, with exactly `n`
children, and the child at index `i` carries the field label
`{field_label}[{i}]`. -/
theorem add_node_sequence_row (base : SeqBase) (cls : String) (es : List PyVal)
    (lbl : String) (h : cls = "list" ∨ cls = "tuple") :
    (add_node (PyVal.seq base cls es) lbl).nodeText = lbl ++ " = " ++ cls ∧
    (add_node (PyVal.seq base cls es) lbl).classText = cls ∧
    ((add_node (PyVal.seq base cls es) lbl).children).length = es.length ∧
    ∀ i, i < es.length →
      (((add_node (PyVal.seq base cls es) lbl).children)[i]?).map Row.fieldText
        = some (lbl ++ "[" ++ natToDecimal i ++ "]") := by
  have hch : (add_node (PyVal.seq base cls es) lbl).children
      = add_elems es lbl 0 := by
    simp [add_node, h, Row.children]
  refine ⟨by simp [add_node, h, Row.nodeText], by simp [add_node, h, Row.classText],
    by rw [hch]; exact add_elems_length es lbl 0, ?_⟩
  intro i hi
  rw [hch, add_elems_getElem es lbl 0 i, List.getElem?_eq_getElem hi]
  simp [add_node_fieldText]

theorem add_node_sequence_row_witness :
    (add_node (PyVal.seq SeqBase.listBase "list"
        [PyVal.prim (PrimVal.pyInt 1), PyVal.prim PrimVal.pyNone,
         PyVal.prim (PrimVal.pyBool true)]) "field").nodeText = "field = list" ∧
    ((add_node (PyVal.seq SeqBase.listBase "list"
        [PyVal.prim (PrimVal.pyInt 1), PyVal.prim PrimVal.pyNone,
         PyVal.prim (PrimVal.pyBool true)]) "field").children).length = 3 ∧
    (((add_node (PyVal.seq SeqBase.listBase "list"
        [PyVal.prim (PrimVal.pyInt 1), PyVal.prim PrimVal.pyNone,
         PyVal.prim (PrimVal.pyBool true)]) "field").children)[0]?).map
        Row.fieldText = some "field[0]" ∧
    (((add_node (PyVal.seq SeqBase.listBase "list"
        [PyVal.prim (PrimVal.pyInt 1), PyVal.prim PrimVal.pyNone,
         PyVal.prim (PrimVal.pyBool true)]) "field").children)[1]?).map
        Row.fieldText = some "field[1]" ∧
    (((add_node (PyVal.seq SeqBase.listBase "list"
        [PyVal.prim (PrimVal.pyInt 1), PyVal.prim PrimVal.pyNone,
         PyVal.prim (PrimVal.pyBool true)]) "field").children)[2]?).map
        Row.fieldText = some "field[2]" :=
  have h := add_node_sequence_row SeqBase.listBase "list"
    [PyVal.prim (PrimVal.pyInt 1), PyVal.prim PrimVal.pyNone,
     PyVal.prim (PrimVal.pyBool true)] "field" (Or.inl rfl)
  ⟨h.1, h.2.2.1, h.2.2.2 0 (by decide), h.2.2.2 1 (by decide), h.2.2.2 2 (by decide)⟩

/-- C9: the projector dispatches with `isinstance` for AST nodes (any class
name, i.e. every subclass of `ast.AST`, yields a composite row) but with
exact type equality for sequences: a sequence whose concrete class is a
proper subclass of `list` or `tuple` is rendered as a leaf row whose value
is the repr of the value, not as a composite sequence row. -/
theorem add_node_exact_type_dispatch :
    (∀ (base : SeqBase) (cls : String) (es : List PyVal) (lbl : String),
      cls ≠ "list" → cls ≠ "tuple" →
      add_node (PyVal.seq base cls es) lbl =
        Row.mk (lbl ++ " = " ++ pyRepr (PyVal.seq base cls es)) lbl cls
          (pyRepr (PyVal.seq base cls es)) []) ∧
    (∀ (cls : String) (fields : List (String × PyVal)) (lbl : String),
      (add_node (PyVal.astNode cls fields) lbl).valueText = "" ∧
      (add_node (PyVal.astNode cls fields) lbl).children = add_fields fields) := by
  constructor
  · intro base cls es lbl h1 h2
    have h : ¬(cls = "list" ∨ cls = "tuple") := by
      intro hor
      rcases hor with hor | hor
      · exact h1 hor
      · exact h2 hor
    simp [add_node, h]
  · intro cls fields lbl
    exact ⟨rfl, rfl⟩

theorem add_node_exact_type_dispatch_witness :
    add_node (PyVal.seq SeqBase.listBase "NodeList"
        [PyVal.prim (PrimVal.pyInt 1)]) "x" =
      Row.mk ("x" ++ " = " ++ pyRepr (PyVal.seq SeqBase.listBase "NodeList"
        [PyVal.prim (PrimVal.pyInt 1)])) "x" "NodeList"
        (pyRepr (PyVal.seq SeqBase.listBase "NodeList"
          [PyVal.prim (PrimVal.pyInt 1)])) [] ∧
    pyRepr (PyVal.seq SeqBase.listBase "NodeList"
        [PyVal.prim (PrimVal.pyInt 1)]) = "[1]" :=
  ⟨add_node_exact_type_dispatch.1 SeqBase.listBase "NodeList"
      [PyVal.prim (PrimVal.pyInt 1)] "x" (by decide) (by decide), rfl⟩

/-- C3: when the source text fails to parse, the warning shown to the user
contains the offending file name, the exception message and the textual
stack trace (it is exactly the formatted message built from the three); the
tree-population routine is never invoked for that rebuild, and the
previously displayed tree is left unchanged. -/
theorem update_widgets_parse_error
    (parser : String → String → String → ParseOutcome) (st : AstViewerState)
    (exMsg stackTrace : String) (hsrc : st.source_code ≠ "")
    (hp : parser st.source_code st.file_name st.mode
      = ParseOutcome.failed exMsg stackTrace) :
    (update_widgets parser st).tree = st.tree ∧
    (update_widgets parser st).populateLog = st.populateLog ∧
    (update_widgets parser st).warnings = st.warnings ++
      ["Unable to parse file: " ++ st.file_name ++ "\n\n" ++ exMsg
        ++ "\n\n" ++ stackTrace] := by
  unfold update_widgets
  rw [if_neg hsrc, hp]
  exact ⟨rfl, rfl, rfl⟩

theorem update_widgets_parse_error_witness :
    (update_widgets (fun _ _ _ => ParseOutcome.failed "invalid syntax" "Traceback text")
      { initialState "def f(:" "exec" with file_name := "test.py" }).tree
      = TreeContent.empty ∧
    (update_widgets (fun _ _ _ => ParseOutcome.failed "invalid syntax" "Traceback text")
      { initialState "def f(:" "exec" with file_name := "test.py" }).populateLog
      = [] ∧
    (update_widgets (fun _ _ _ => ParseOutcome.failed "invalid syntax" "Traceback text")
      { initialState "def f(:" "exec" with file_name := "test.py" }).warnings
      = ["Unable to parse file: test.py\n\ninvalid syntax\n\nTraceback text"] := by
  have h := update_widgets_parse_error
    (fun _ _ _ => ParseOutcome.failed "invalid syntax" "Traceback text")
    { initialState "def f(:" "exec" with file_name := "test.py" }
    "invalid syntax" "Traceback text" (by decide) rfl
  exact ⟨h.1, h.2.1, h.2.2⟩

/-- C8: for the empty source string the host shell skips projection
entirely: the tree widget is cleared to an empty tree and neither the
parser nor the tree-population routine is invoked (the parse and populate
call logs are unchanged). -/
theorem update_widgets_empty_source
    (parser : String → String → String → ParseOutcome) (st : AstViewerState)
    (hsrc : st.source_code = "") :
    (update_widgets parser st).tree = TreeContent.empty ∧
    (update_widgets parser st).parseLog = st.parseLog ∧
    (update_widgets parser st).populateLog = st.populateLog ∧
    (update_widgets parser st).editorText = "" := by
  unfold update_widgets
  rw [if_pos hsrc]
  exact ⟨rfl, rfl, rfl, hsrc⟩

theorem update_widgets_empty_source_witness :
    (update_widgets (fun _ _ _ => ParseOutcome.failed "unreachable" "unreachable")
      (initialState "" "exec")).tree = TreeContent.empty ∧
    (update_widgets (fun _ _ _ => ParseOutcome.failed "unreachable" "unreachable")
      (initialState "" "exec")).parseLog = [] ∧
    (update_widgets (fun _ _ _ => ParseOutcome.failed "unreachable" "unreachable")
      (initialState "" "exec")).populateLog = [] ∧
    (update_widgets (fun _ _ _ => ParseOutcome.failed "unreachable" "unreachable")
      (initialState "" "exec")).editorText = "" := by
  have h := update_widgets_empty_source
    (fun _ _ _ => ParseOutcome.failed "unreachable" "unreachable")
    (initialState "" "exec") rfl
  exact ⟨h.1, h.2.1, h.2.2.1, h.2.2.2⟩

/-- C4: for a stored highlight string of the shape the tree widget writes
(four colon-separated fields), `highlight_node` completes without raising:
it returns the selection arguments, and an endpoint whose two fields do not
both parse as integers degrades to `none` (no highlight) for that endpoint
only. -/
theorem highlight_node_malformed (s a b c d : String)
    (hsplit : pySplit ':' s = [a, b, c, d]) :
    highlight_node (some s) = Except.ok (parsePair a b, parsePair c d) ∧
    ((parsePyInt a = none ∨ parsePyInt b = none) → parsePair a b = none) ∧
    ((parsePyInt c = none ∨ parsePyInt d = none) → parsePair c d = none) := by
  refine ⟨?_, ?_, ?_⟩
  · show (match pySplit ':' s with
      | [a, b, c, d] => Except.ok (parsePair a b, parsePair c d)
      | _ => Except.error "ValueError: unpacking highlight string")
      = Except.ok (parsePair a b, parsePair c d)
    rw [hsplit]
  · rintro (h | h)
    · exact parsePair_none_left h
    · exact parsePair_none_right h
  · rintro (h | h)
    · exact parsePair_none_left h
    · exact parsePair_none_right h

theorem highlight_node_malformed_witness :
    highlight_node (some "x:0:2:hello") = Except.ok (none, none) := by
  have h := highlight_node_malformed "x:0:2:hello" "x" "0" "2" "hello" rfl
  rw [h.1, h.2.1 (Or.inl rfl), h.2.2 (Or.inr rfl)]

/-- C7: for a non-sentinel span, formatting the four span integers as the
highlight string and re-parsing that string the way `highlight_node` does
(splitting on the colon and converting each field with `int`) yields the
same four integers: the highlighter receives exactly the two original
endpoint pairs. -/
theorem highlight_node_roundtrip (sl sc el ec : Int)
    (_h : ¬(sl = 0 ∧ sc = 0 ∧ el = 0 ∧ ec = 0)) :
    highlight_node (some (highlightString sl sc el ec))
      = Except.ok (some (sl, sc), some (el, ec)) := by
  show (match pySplit ':' (highlightString sl sc el ec) with
    | [a, b, c, d] => Except.ok (parsePair a b, parsePair c d)
    | _ => Except.error "ValueError: unpacking highlight string")
    = Except.ok (some (sl, sc), some (el, ec))
  rw [pySplit_highlightString]
  show Except.ok (parsePair (intToDecimal sl) (intToDecimal sc),
      parsePair (intToDecimal el) (intToDecimal ec))
    = Except.ok (some (sl, sc), some (el, ec))
  rw [parsePair_intToDecimal sl sc, parsePair_intToDecimal el ec]

theorem highlight_node_roundtrip_witness :
    highlight_node (some (highlightString 1 0 2 5))
      = Except.ok (some (1, 0), some (2, 5)) :=
  highlight_node_roundtrip 1 0 2 5 (by decide)

/-- C5 counterexample: the claim "no tree rebuild is attempted for that
open-file operation" is false on the code, and so is the reporting of
decode failures. First part: opening a missing file while non-empty source
is loaded still reaches `_update_widgets`, which re-parses the unchanged
source and calls `populate` (the populate log grows from empty to length
one). Second part: a file that opens but fails to decode raises an uncaught
exception instead of being reported (only `TypeError` is caught). -/
theorem open_file_rebuild_counterexample :
    (Except.map (fun st => st.populateLog.length)
      (open_file (fun _ => FileReadOutcome.openFail)
        (fun _ _ _ => ParseOutcome.ok (PyVal.prim PrimVal.pyNone)) ""
        { initialState "x = 1" "exec" with file_name := "old.py" } "missing.py")
      = Except.ok 1) ∧
    (load_file (fun _ => FileReadOutcome.decodeFail "UnicodeDecodeError: invalid byte")
      (initialState "" "exec") "data.py"
      = Except.error "UnicodeDecodeError: invalid byte") :=
  ⟨rfl, rfl⟩

/-- C5 as amended: when a file cannot be opened, the failure is reported to
the user in a warning naming the file and the stored file name and source
code are left unchanged; however the open-file operation still runs the
widget update, which re-parses the unchanged (non-empty) source — a tree
rebuild is attempted rather than skipped. (A file that opens but cannot be
decoded raises an uncaught exception instead; see the counterexample.) -/
theorem open_file_open_failure
    (fs : String → FileReadOutcome)
    (parser : String → String → String → ParseOutcome)
    (dlg : String) (st : AstViewerState) (fn : String)
    (hfn : fn ≠ "") (hfs : fs fn = FileReadOutcome.openFail)
    (hsrc : st.source_code ≠ "") :
    ∃ st2, open_file fs parser dlg st fn = Except.ok st2 ∧
      st2.file_name = st.file_name ∧
      st2.source_code = st.source_code ∧
      ("Unable to open file: " ++ fn) ∈ st2.warnings ∧
      st2.parseLog = st.parseLog ++ [st.source_code] := by
  have hload : load_file fs st fn = Except.ok
      { st with
        warnings := st.warnings ++ ["Unable to open file: " ++ fn],
        log := st.log ++ ["Unable to open file: " ++ fn] } := by
    unfold load_file
    rw [hfs]
  have hopen : open_file fs parser dlg st fn = Except.ok (update_widgets parser
      { st with
        warnings := st.warnings ++ ["Unable to open file: " ++ fn],
        log := st.log ++ ["Unable to open file: " ++ fn] }) := by
    simp only [open_file]
    rw [if_neg hfn, if_neg hfn, hload]
  refine ⟨_, hopen, ?_, ?_, ?_, ?_⟩
  · rw [update_widgets_file_name]
  · rw [update_widgets_source_code]
  · obtain ⟨tail, htail⟩ := update_widgets_warnings_mono parser
      { st with
        warnings := st.warnings ++ ["Unable to open file: " ++ fn],
        log := st.log ++ ["Unable to open file: " ++ fn] }
    rw [htail]
    simp
  · rw [update_widgets_parseLog parser
      { st with
        warnings := st.warnings ++ ["Unable to open file: " ++ fn],
        log := st.log ++ ["Unable to open file: " ++ fn] } hsrc]

theorem open_file_open_failure_witness :
    ∃ st2, open_file (fun _ => FileReadOutcome.openFail)
        (fun _ _ _ => ParseOutcome.ok (PyVal.prim PrimVal.pyNone)) ""
        { initialState "x = 1" "exec" with file_name := "old.py" } "missing.py"
        = Except.ok st2 ∧
      st2.file_name = "old.py" ∧
      st2.source_code = "x = 1" ∧
      ("Unable to open file: " ++ "missing.py") ∈ st2.warnings ∧
      st2.parseLog = ["x = 1"] :=
  open_file_open_failure (fun _ => FileReadOutcome.openFail)
    (fun _ _ _ => ParseOutcome.ok (PyVal.prim PrimVal.pyNone)) ""
    { initialState "x = 1" "exec" with file_name := "old.py" } "missing.py"
    (by decide) rfl (by decide)

/-- C10: if the constructor is given both a non-empty file name and
non-empty source code, the file contents are loaded and displayed, the
source-code argument is discarded, and only the logger warning records
the conflict; and an invalid mode raises `ValueError` before any state is
produced. -/
theorem astViewerInit_spec :
    (∀ (fs : String → FileReadOutcome)
        (parser : String → String → String → ParseOutcome)
        (file_name source_code mode text : String),
      mode ∈ validModes → file_name ≠ "" → source_code ≠ "" →
      fs file_name = FileReadOutcome.ok text →
      ∃ st, astViewerInit fs parser file_name source_code mode = Except.ok st ∧
        st.file_name = file_name ∧
        st.source_code = text ∧
        st.editorText = text ∧
        st.log = [bothDefinedWarning]) ∧
    (∀ (fs : String → FileReadOutcome)
        (parser : String → String → String → ParseOutcome)
        (file_name source_code mode : String),
      mode ∉ validModes →
      astViewerInit fs parser file_name source_code mode
        = Except.error modeErrorMessage) := by
  constructor
  · intro fs parser file_name source_code mode text hmode hfn hsc hfs
    have hst1 : initWarnState file_name source_code mode
        = { initialState source_code mode with log := [bothDefinedWarning] } := by
      unfold initWarnState
      rw [if_pos ⟨hfn, hsc⟩]
      rfl
    have hload : load_file fs
        { initialState source_code mode with log := [bothDefinedWarning] } file_name
        = Except.ok { initialState source_code mode with
            log := [bothDefinedWarning],
            file_name := file_name, source_code := text } := by
      unfold load_file
      rw [hfs]
    refine ⟨update_widgets parser { initialState source_code mode with
        log := [bothDefinedWarning],
        file_name := file_name, source_code := text }, ?_, ?_, ?_, ?_, ?_⟩
    · unfold astViewerInit
      rw [if_pos hmode, hst1, if_pos hfn, hload]
    · rw [update_widgets_file_name]
    · rw [update_widgets_source_code]
    · rw [update_widgets_editorText]
    · rw [update_widgets_log]
  · intro fs parser file_name source_code mode hmode
    unfold astViewerInit
    rw [if_neg hmode]

theorem astViewerInit_spec_witness :
    (∃ st, astViewerInit (fun _ => FileReadOutcome.ok "x = 1")
        (fun _ _ _ => ParseOutcome.ok (PyVal.prim PrimVal.pyNone))
        "prog.py" "y = 2" "exec" = Except.ok st ∧
      st.file_name = "prog.py" ∧
      st.source_code = "x = 1" ∧
      st.editorText = "x = 1" ∧
      st.log = [bothDefinedWarning]) ∧
    (astViewerInit (fun _ => FileReadOutcome.ok "x = 1")
        (fun _ _ _ => ParseOutcome.ok (PyVal.prim PrimVal.pyNone))
        "prog.py" "y = 2" "single2" = Except.error modeErrorMessage) :=
  ⟨astViewerInit_spec.1 (fun _ => FileReadOutcome.ok "x = 1")
      (fun _ _ _ => ParseOutcome.ok (PyVal.prim PrimVal.pyNone))
      "prog.py" "y = 2" "exec" "x = 1" (by decide) (by decide) (by decide) rfl,
   astViewerInit_spec.2 (fun _ => FileReadOutcome.ok "x = 1")
      (fun _ _ _ => ParseOutcome.ok (PyVal.prim PrimVal.pyNone))
      "prog.py" "y = 2" "single2" (by decide)⟩
